import Mathlib

/-!
Shallow embedding of the cellular-template-processor core
(`data_processor.py`, `excel_handler.py`, `app.py`) and proofs about it.

Python objects that the pipeline manipulates (JSON-like data extracted from
images, spreadsheet cell payloads) are modelled by the inductive type `Value`;
Python dicts are association lists over `String` keys; machine floats are
idealized as rationals (the numeric claims checked here involve only exactly
representable values); fallible Python code is modelled with `Except`,
where a raised exception becomes an `Except.error` carrying the exception text.
-/

/-- A Python value as used by the pipeline: `None`, `bool`, `int`, `float`
(idealized as `ℚ`), `str`, `dict` (string-keyed, insertion ordered) or
`list`. -/
inductive Value where
  | null
  | bool (b : Bool)
  | int (n : Int)
  | float (q : ℚ)
  | str (s : String)
  | dict (entries : List (String × Value))
  | list (elems : List Value)

/-- `v is None` check. -/
def Value.isNull : Value → Bool
  | .null => true
  | _ => false

/-- A Python dict with string keys, as an insertion-ordered association list. -/
abbrev Record := List (String × Value)

/-- First-occurrence lookup in an association list (a Python dict holds each
key once, so this is `d.get(k)` / `d[k]`). -/
def lookupA {α : Type} : List (String × α) → String → Option α
  | [], _ => none
  | (k, v) :: rest, key => if k = key then some v else lookupA rest key

/-- `k in d` for a Python dict. -/
def containsKeyA {α : Type} (d : List (String × α)) (k : String) : Bool :=
  (lookupA d k).isSome

/-- `d[k] = v` on a Python dict: replaces the value in place if the key is
present (keeping its position), otherwise appends the new pair at the end. -/
def setKeyA {α : Type} : List (String × α) → String → α → List (String × α)
  | [], key, v => [(key, v)]
  | (k, w) :: rest, key, v =>
    if k = key then (k, v) :: rest else (k, w) :: setKeyA rest key v

/-- The key list of a dict, in insertion order. -/
def keysOf {α : Type} (d : List (String × α)) : List String :=
  d.map Prod.fst

/-- `d.get(k) is None`: true when the key is absent or holds `None`. -/
def getIsNone (d : Record) (k : String) : Bool :=
  match lookupA d k with
  | none => true
  | some v => v.isNull

/-- One step of the null-coalescing merge loop of `app.py`
(`if target.get(k) is None and v is not None: target[k] = v`). -/
def mergeStep (acc : Record) (p : String × Value) : Record :=
  if getIsNone acc p.1 && !p.2.isNull then setKeyA acc p.1 p.2 else acc

/-- The null-coalescing merge used by every repair pass in `app.py`
(lines 157-159, 199-201, 212-214, 248-250, 255-257): iterate over the new
fields in order and fill only absent-or-null targets with non-null values. -/
def mergeRecord (target newFields : Record) : Record :=
  newFields.foldl mergeStep target

/-- ASCII whitespace recognized by Python `str.strip()` with no argument
(Unicode spaces are outside the model). -/
def pyIsSpace (c : Char) : Bool :=
  c == ' ' || c == '\t' || c == '\n' || c == '\r' || c == '\x0b' || c == '\x0c'

/-- Python `s.strip()`. -/
def pyStrip (s : String) : String :=
  String.mk (((s.data.dropWhile pyIsSpace).reverse.dropWhile pyIsSpace).reverse)

/-- Python `s.lower()` (ASCII). -/
def lowerStr (s : String) : String :=
  String.mk (s.data.map Char.toLower)

/-- `_normalize_name` of `data_processor.py`:
`re.sub(r"[^0-9a-zA-Z]", "", s).lower()`. -/
def normalizeName (s : String) : String :=
  lowerStr (String.mk (s.data.filter (fun c => c.isAlpha || c.isDigit)))

/-- Zero-based indexing into a character list. -/
def listNth {α : Type} : List α → Nat → Option α
  | [], _ => none
  | a :: _, 0 => some a
  | _ :: rest, n + 1 => listNth rest n

/-- First character class of the root regex `^([A-Za-z_]\w*)(.*)$`. -/
def isIdentStart (c : Char) : Bool :=
  c.isAlpha || c == '_'

/-- `\w` (ASCII fragment; the model covers ASCII identifiers). -/
def isWordChar (c : Char) : Bool :=
  c.isAlpha || c.isDigit || c == '_'

/-- `re.match(r"^([A-Za-z_]\w*)(.*)$", expr)` applied to the already-stripped
expression: group 1 is the maximal leading identifier, group 2 the remainder.
Since the input was stripped it has no trailing newline, so `$` can only match
at the very end and the match succeeds exactly when the remainder contains no
newline (`.` does not cross newlines). -/
def matchRoot (s : String) : Option (String × String) :=
  match s.data with
  | [] => none
  | c :: cs =>
    if isIdentStart c then
      let rest := cs.dropWhile isWordChar
      if rest.contains '\n' then none
      else some (String.mk (c :: cs.takeWhile isWordChar), String.mk rest)
    else none

/-- Where the Python regex anchor `$` matches (no MULTILINE): at the end of the
input, or just before a newline that is the last character. -/
def dollarAt (s : List Char) (i : Nat) : Bool :=
  i == s.length || ((i + 1 == s.length) && (listNth s i == some '\n'))

/-- A single or double quote, as in the character classes of `key_pattern`. -/
def isQuote (c : Char) : Bool :=
  c == '\x27' || c == '"'

/-- One match attempt, at position `i`, of the path-segment pattern of
`data_processor.py` line 27: `re.compile(r"$$['\"]([^'\"]+)['\"]$$")`.
The pattern is, in order: anchor `$` twice, a quote, one or more non-quote
characters (captured), a quote, then anchor `$` twice.  Returns the captured
group and the end position on success. -/
def keyMatchAt (s : List Char) (i : Nat) : Option (String × Nat) :=
  if dollarAt s i && dollarAt s i then
    match listNth s i with
    | some c =>
      if isQuote c then
        let body := (s.drop (i + 1)).takeWhile (fun d => !isQuote d)
        if body.isEmpty then none
        else
          match listNth s (i + 1 + body.length) with
          | some c2 =>
            if isQuote c2 && dollarAt s (i + 1 + body.length + 1)
                && dollarAt s (i + 1 + body.length + 1) then
              some (String.mk body, i + 1 + body.length + 1)
            else none
          | none => none
      else none
    | none => none
  else none

/-- The scan loop of `findall`: try a match at every position left to right. -/
def keyFindAllAux (s : List Char) : Nat → Nat → List String
  | i, fuel + 1 =>
    if i > s.length then []
    else
      match keyMatchAt s i with
      | some (b, j) => b :: keyFindAllAux s (max j (i + 1)) fuel
      | none => keyFindAllAux s (i + 1) fuel
  | _, 0 => []

/-- `key_pattern.findall(rest)`. -/
def keyPatternFindall (s : String) : List String :=
  keyFindAllAux s.data 0 (s.data.length + 1)

/-- Python truthiness test `not base_key` on an optional string: `None` and the
empty string are falsy. -/
def falsyStrOpt : Option String → Bool
  | none => true
  | some s => s.data.isEmpty

/-- `norm_map = {_normalize_name(k): k for k in allowed_vars}` followed by
`.get(...)`: on normalization collisions the later key wins, hence the search
from the right. -/
def normMapLookup (vars : Record) (nb : String) : Option String :=
  (vars.reverse.find? (fun p => normalizeName p.1 == nb)).map Prod.fst

/-- Base-variable resolution of `resolve_expression_with_vars` (lines 45-55):
normalized lookup first, then a case-insensitive fallback scan, each result
checked with Python truthiness. -/
def findBaseKey (vars : Record) (baseRaw : String) : Option String :=
  let bk1 := normMapLookup vars (normalizeName baseRaw)
  let bk2 :=
    if falsyStrOpt bk1 then
      (vars.find? (fun p => lowerStr p.1 == lowerStr baseRaw)).map Prod.fst
    else bk1
  if falsyStrOpt bk2 then none else bk2

/-- The key-traversal loop of `resolve_expression_with_vars` (lines 66-83):
exact key match first, else first key equal case-insensitively or after
normalization; failure or a non-dict intermediate yields `None`. -/
def resolvePath : Value → List String → Value
  | obj, [] => obj
  | obj, k :: ks =>
    match obj with
    | .dict d =>
      if containsKeyA d k then
        match lookupA d k with
        | some v => resolvePath v ks
        | none => Value.null
      else
        match d.find? (fun p =>
            lowerStr p.1 == lowerStr k || normalizeName p.1 == normalizeName k) with
        | some p => resolvePath p.2 ks
        | none => Value.null
    | _ => Value.null

/-- Tail of `resolve_expression_with_vars` once the base object is in hand
(lines 58-63): return it whole when the remainder is blank, else extract the
bracketed path segments with `key_pattern` and walk them.  `Value.null` plays
the role of Python `None`, covering both a stored null and the not-found
outcome, exactly as in the source. -/
def resolveAfterBase (rest : String) (obj : Value) : Value :=
  if (pyStrip rest).data.isEmpty then obj
  else
    match keyPatternFindall rest with
    | [] => Value.null
    | keys => resolvePath obj keys

/-- Base-variable stage of `resolve_expression_with_vars` (lines 45-59). -/
def resolveRoot (allowedVars : Record) (baseRaw rest : String) : Value :=
  match findBaseKey allowedVars baseRaw with
  | none => Value.null
  | some baseKey =>
    match lookupA allowedVars baseKey with
    | none => Value.null
    | some obj => resolveAfterBase rest obj

/-- Entry point of the resolver: strip, match the root identifier, then the
base-variable stage. -/
def resolveExpressionWithVars (expr : String) (allowedVars : Record) : Value :=
  match matchRoot (pyStrip expr) with
  | none => Value.null
  | some (baseRaw, rest) => resolveRoot allowedVars baseRaw rest

/-- Python `s.replace(",", "")`. -/
def stripCommas (s : String) : String :=
  String.mk (s.data.filter (fun c => c != ','))

/-- All characters are ASCII digits. -/
def allDigits (cs : List Char) : Bool :=
  cs.all Char.isDigit

/-- Numeric value of a digit string. -/
def digitsToNat (cs : List Char) : Nat :=
  cs.foldl (fun a c => 10 * a + (c.toNat - 48)) 0

/-- Consume the optional sign of `[-+]?`. -/
def splitSign : List Char → Int × List Char
  | '+' :: rest => (1, rest)
  | '-' :: rest => (-1, rest)
  | cs => (1, cs)

/-- `re.fullmatch(r"[-+]?\d+", s)` followed by `int(s)`. -/
def matchIntPattern (cs : List Char) : Option Int :=
  let (sg, rest) := splitSign cs
  if !rest.isEmpty && allDigits rest then some (sg * (digitsToNat rest : Int)) else none

/-- `re.fullmatch(r"[-+]?\d*\.\d+", s)` followed by `float(s)` (idealized over
`ℚ`; the digit strings checked here are exactly representable as floats). -/
def matchDecPattern (cs : List Char) : Option ℚ :=
  let (sg, rest) := splitSign cs
  let ipart := rest.takeWhile Char.isDigit
  match rest.dropWhile Char.isDigit with
  | '.' :: fpart =>
    if !fpart.isEmpty && allDigits fpart then
      some ((sg : ℚ) * ((digitsToNat ipart : ℚ)
        + (digitsToNat fpart : ℚ) / (10 : ℚ) ^ fpart.length))
    else none
  | _ => none

/-- `_to_number_convert` of `excel_handler.py` (lines 148-166).  Notes kept
from the source: `None` maps to `None`; the `isinstance(v, (int, float))`
test fires before the `bool` test, and a Python `bool` is an `int`, so a bool
is returned unchanged and the dedicated bool branch is dead; for a mapping or
sequence, `str(v)` begins with a brace or bracket and never matches either
numeric pattern, so the conversion yields `None`. -/
def toNumberConvert (v : Value) : Option Value :=
  match v with
  | .null => none
  | .int n => some (.int n)
  | .float q => some (.float q)
  | .bool b => some (.bool b)
  | .str s =>
    let sc := stripCommas (pyStrip s)
    if sc.data.isEmpty then none
    else
      match matchIntPattern sc.data with
      | some n => some (.int n)
      | none =>
        match matchDecPattern sc.data with
        | some q => some (.float q)
        | none => none
  | .dict _ => none
  | .list _ => none

/-- Minimal JSON string escaping (backslash and double quote; the control
characters never occur in the data handled here). -/
def jsonEscape (s : String) : String :=
  String.mk (s.data.foldr (fun c acc =>
    if c == '\\' then '\\' :: '\\' :: acc
    else if c == '"' then '\\' :: '"' :: acc
    else c :: acc) [])

/-- Left-pad a string with zeros up to a length. -/
def padZeros (s : String) (len : Nat) : String :=
  String.mk (List.replicate (len - s.data.length) '0') ++ s

/-- Decimal rendering of a terminating rational, as Python `repr` renders the
floats that arise here (a non-terminating rational cannot arise from a float
and falls back to a fraction rendering). -/
def floatRepr (q : ℚ) : String :=
  if q.den = 1 then toString q.num ++ ".0"
  else
    match (List.range 30).find? (fun k => (q * (10 : ℚ) ^ (k + 1)).den == 1) with
    | some k =>
      let n := (q * (10 : ℚ) ^ (k + 1)).num
      let sign := if n < 0 then "-" else ""
      let a := n.natAbs
      let pw := 10 ^ (k + 1)
      sign ++ toString (a / pw) ++ "." ++ padZeros (toString (a % pw)) (k + 1)
    | none => toString q.num ++ "/" ++ toString q.den

mutual

/-- `json.dumps` with default separators, over the modelled values. -/
def jsonDumps : Value → String
  | .null => "null"
  | .bool b => if b then "true" else "false"
  | .int n => toString n
  | .float q => floatRepr q
  | .str s => "\"" ++ jsonEscape s ++ "\""
  | .dict d => "\x7b" ++ jsonDumpsEntries d ++ "\x7d"
  | .list l => "[" ++ jsonDumpsElems l ++ "]"

/-- Comma-separated `"key": value` renderings of a dict body. -/
def jsonDumpsEntries : List (String × Value) → String
  | [] => ""
  | [(k, v)] => "\"" ++ jsonEscape k ++ "\": " ++ jsonDumps v
  | (k, v) :: rest =>
    "\"" ++ jsonEscape k ++ "\": " ++ jsonDumps v ++ ", " ++ jsonDumpsEntries rest

/-- Comma-separated renderings of a list body. -/
def jsonDumpsElems : List Value → String
  | [] => ""
  | [v] => jsonDumps v
  | v :: rest => jsonDumps v ++ ", " ++ jsonDumpsElems rest

end

/-- The write-back coercion of `map_values_to_template` (`excel_handler.py`
lines 171-188), as a function of the resolved value: `None` becomes the
`"NULL"` sentinel; a string is numerically converted when possible, else kept;
native numbers (and bools, which pass the `(int, float)` isinstance test) are
kept; mappings and sequences are serialized as JSON text. -/
def coerceValue (resolved : Value) : Value :=
  match resolved with
  | .null => .str "NULL"
  | .str s =>
    match toNumberConvert (.str s) with
    | some conv => conv
    | none => .str s
  | .int n => .int n
  | .float q => .float q
  | .bool b => .bool b
  | .dict d => .str (jsonDumps (.dict d))
  | .list l => .str (jsonDumps (.list l))

/-- Exponent part of the `float()` grammar: empty, or `e`/`E`, optional sign,
digits. -/
def parseExponent : List Char → Option Int
  | [] => some 0
  | c :: rest =>
    if c == 'e' || c == 'E' then
      let (sg, ds) := splitSign rest
      if !ds.isEmpty && allDigits ds then some (sg * (digitsToNat ds : Int)) else none
    else none

/-- Unsigned part of the `float()` grammar: `digits [. digits] [exponent]`
with at least one mantissa digit (IEEE specials `inf`/`nan` and digit-group
underscores are outside the rational model; they do not occur in the data
checked here). -/
def parseUnsignedFloat (cs : List Char) : Option ℚ :=
  let ip := cs.takeWhile Char.isDigit
  match cs.dropWhile Char.isDigit with
  | '.' :: r2 =>
    let fp := r2.takeWhile Char.isDigit
    if ip.isEmpty && fp.isEmpty then none
    else
      match parseExponent (r2.dropWhile Char.isDigit) with
      | some e => some (((digitsToNat ip : ℚ)
          + (digitsToNat fp : ℚ) / (10 : ℚ) ^ fp.length) * (10 : ℚ) ^ e)
      | none => none
  | r1 =>
    if ip.isEmpty then none
    else
      match parseExponent r1 with
      | some e => some ((digitsToNat ip : ℚ) * (10 : ℚ) ^ e)
      | none => none

/-- Python `float(s)` on a string, `None` when `ValueError` would be raised. -/
def pyFloatOfString (s : String) : Option ℚ :=
  let t := pyStrip s
  let (sg, cs) := splitSign t.data
  (parseUnsignedFloat cs).map (fun q => (sg : ℚ) * q)

/-- `_to_number` of `compute_averages` (`data_processor.py` lines 149-157):
`None` and `bool` are rejected, then `float(v)` is attempted — succeeding on
numbers and numeric strings, raising (caught, hence `None`) on mappings and
sequences. -/
def toNumber (v : Value) : Option ℚ :=
  match v with
  | .null => none
  | .bool _ => none
  | .int n => some (n : ℚ)
  | .float q => some q
  | .str s => pyFloatOfString s
  | .dict _ => none
  | .list _ => none

/-- `entry.get(m)`: absent keys read as `None`. -/
def entryGet (d : Record) (k : String) : Value :=
  match lookupA d k with
  | some v => v
  | none => Value.null

/-- One entry of the metric-collection loop of `_compute_speed_averages`
(`data_processor.py` lines 161-167): non-dict entries are skipped, the
metric's converted value is appended when conversion succeeds. -/
def collectStep (m : String) (acc : List ℚ) (e : String × Value) : List ℚ :=
  match e.2 with
  | .dict d =>
    match toNumber (entryGet d m) with
    | some q => acc ++ [q]
    | none => acc
  | _ => acc

/-- The list `metrics[m]` accumulated over a speedtest map. -/
def collectMetric (speedMap : List (String × Value)) (m : String) : List ℚ :=
  speedMap.foldl (collectStep m) []

/-- Insertion order of the `metrics` dict of `_compute_speed_averages`. -/
def speedMetricNames : List String :=
  ["download_mbps", "upload_mbps", "ping_ms"]

/-- `_compute_speed_averages(speed_map)`: per metric, the mean of the collected
values, or `None` when none were collected. -/
def computeSpeedAverages (speedMap : List (String × Value)) : Record :=
  speedMetricNames.map (fun m =>
    let vals := collectMetric speedMap m
    (m, if vals.isEmpty then Value.null
        else Value.float (vals.sum / (vals.length : ℚ))))

/-- `compute_averages` of `data_processor.py` (lines 146-181), including its
result keys exactly as spelled in the source. -/
def computeAverages (a b g : List (String × Value)) : List (String × Record) :=
  [("avearge_alpha_speedtest", computeSpeedAverages a),
   ("avearge_beta_speedtest", computeSpeedAverages b),
   ("avearge_gamma_speedtest", computeSpeedAverages g)]

/-- The metric value an entry contributes, if any: entries that are not dicts
or whose value fails `float()` conversion contribute nothing. -/
def metricOfEntry (m : String) (e : String × Value) : Option ℚ :=
  match e.2 with
  | .dict d => toNumber (entryGet d m)
  | _ => none

/-- Specification-side reformulation of the collected metric values: the
`float()`-convertible values of the metric across the map's dict entries, in
order. -/
def contributingValues (speedMap : List (String × Value)) (m : String) : List ℚ :=
  speedMap.filterMap (metricOfEntry m)

/-- Mean of a list of rationals, null when empty. -/
def meanValue (l : List ℚ) : Value :=
  if l.isEmpty then Value.null else Value.float (l.sum / (l.length : ℚ))

/-- Written from the claim's words, for comparison with the source: a value
counts only when it is a non-null, non-boolean **numeric** value (a numeric
string does not count). -/
def strictNumeric (v : Value) : Option ℚ :=
  match v with
  | .int n => some (n : ℚ)
  | .float q => some q
  | _ => none

/-- Written from the claim's words, for comparison with the source: the values
of entries holding a numeric value for the metric. -/
def strictContributingValues (speedMap : List (String × Value)) (m : String) : List ℚ :=
  speedMap.filterMap (fun e =>
    match e.2 with
    | .dict d => strictNumeric (entryGet d m)
    | _ => none)

/-- Written from the claim's words, for comparison with the source: per-metric
mean over entries holding a numeric value, null when there are none. -/
def specSpeedAveragesStrict (speedMap : List (String × Value)) : Record :=
  speedMetricNames.map (fun m => (m, meanValue (strictContributingValues speedMap m)))

/-- Split a character list on a separator character; Python
`s.split(sep)` for a one-character separator (empty input gives `[""]`). -/
def splitOnChar (sep : Char) : List Char → List (List Char)
  | [] => [[]]
  | c :: rest =>
    if c == sep then [] :: splitOnChar sep rest
    else
      match splitOnChar sep rest with
      | [] => [[c]]
      | g :: gs => (c :: g) :: gs

/-- Index of the last occurrence of a character. -/
def lastIndexOfChar (cs : List Char) (c : Char) : Option Nat :=
  match cs.reverse.findIdx? (fun d => d == c) with
  | some j => some (cs.length - 1 - j)
  | none => none

/-- `pathlib.Path(p).stem` (POSIX): the final path component without its last
suffix; a suffix exists when the last dot is neither the first nor the last
character of the name. -/
def pyStemOf (p : String) : String :=
  let name := (splitOnChar '/' p.data).getLastD []
  match lastIndexOfChar name '.' with
  | some idx =>
    if 0 < idx ∧ idx < name.length - 1 then String.mk (name.take idx)
    else String.mk name
  | none => String.mk name

/-- A Python dict key as supplied at a subscript or membership test: a string,
or (as happens in `group_images_by_sector`) a list of strings. -/
inductive PyKey where
  | str (s : String)
  | list (l : List String)

/-- `key in d` for a Python dict: hashing an (unhashable) list key raises
`TypeError`. -/
def dictContainsKey (keys : List String) : PyKey → Except String Bool
  | .str s => .ok (keys.contains s)
  | .list _ => .error "TypeError: unhashable type: list"

/-- Append to the bucket stored at a (string) key. -/
def appendAtKey (buckets : List (String × List String)) (k : String) (p : String) :
    List (String × List String) :=
  buckets.map (fun q => if q.1 = k then (q.1, q.2 ++ [p]) else q)

/-- Left fold threading `Except` state, stopping at the first error — the
semantics of a Python loop in which an iteration may raise. -/
def foldE {ε α β : Type} (f : β → α → Except ε β) : β → List α → Except ε β
  | b, [] => .ok b
  | b, a :: as =>
    match f b a with
    | .error e => .error e
    | .ok b2 => foldE f b2 as

/-- One iteration of `group_images_by_sector` (`data_processor.py` lines
187-192).  As in the source, the key tested for membership is
`Path(p).stem.split("_")` — the split result itself, a list. -/
def groupStep (buckets : List (String × List String)) (p : String) :
    Except String (List (String × List String)) :=
  let sector : PyKey := .list ((splitOnChar '_' (pyStemOf p).data).map String.mk)
  match dictContainsKey (keysOf buckets) sector with
  | .error e => .error e
  | .ok true =>
    match sector with
    | .str s => .ok (appendAtKey buckets s p)
    | .list _ => .error "TypeError: unhashable type: list"
  | .ok false => .ok (appendAtKey buckets "unknown" p)

/-- `group_images_by_sector(image_paths)` of `data_processor.py`. -/
def groupImagesBySector (paths : List String) :
    Except String (List (String × List String)) :=
  foldE groupStep
    [("alpha", []), ("beta", []), ("gamma", []), ("voicetest", []), ("unknown", [])]
    paths

/-- The font attributes `scan_bold_red_expressions` inspects. -/
structure CellFont where
  bold : Bool
  colorRgb : Option String

/-- A worksheet cell: position, payload, font. -/
structure Cell where
  row : Nat
  col : Nat
  value : Option Value
  font : Option CellFont

/-- Python `s[-n:]`. -/
def takeRight {α : Type} (n : Nat) (cs : List α) : List α :=
  (cs.reverse.take n).reverse

/-- `_font_is_strict_red` of `excel_handler.py` (lines 99-111): present, bold,
has a color whose rgb string is truthy and uppercases to a string ending in
`FF0000`. -/
def fontIsStrictRed (f : Option CellFont) : Bool :=
  match f with
  | none => false
  | some ft =>
    ft.bold &&
      (match ft.colorRgb with
       | none => false
       | some rgb =>
         !rgb.data.isEmpty &&
           (String.mk (takeRight 6 (rgb.data.map Char.toUpper)) == "FF0000"))

/-- Python `s[1:-1]`. -/
def sliceInner {α : Type} (cs : List α) : List α :=
  (cs.drop 1).dropLast

/-- `_normalize_expr` of `excel_handler.py` (lines 113-117): strip, remove one
layer of surrounding matching quotes, strip again. -/
def normalizeExpr (raw : String) : String :=
  let t := pyStrip raw
  let cs := t.data
  let quoted :=
    match cs.head?, cs.getLast? with
    | some h, some l => (h == '"' && l == '"') || (h == '\x27' && l == '\x27')
    | _, _ => false
  if quoted then pyStrip (String.mk (sliceInner cs)) else t

/-- The per-cell filter of `scan_bold_red_expressions` (lines 119-131): only
columns 1 through 16 are visited (`iter_rows(min_col=1, max_col=16)`), the
payload must be a truthy string, the font strictly bold red, and the
normalized expression nonempty. -/
def cellCandidate (c : Cell) : Option (Cell × String) :=
  if c.col < 1 ∨ 16 < c.col then none
  else
    match c.value with
    | some (Value.str s) =>
      if s.data.isEmpty then none
      else if fontIsStrictRed c.font then
        if (normalizeExpr s).data.isEmpty then none else some (c, normalizeExpr s)
      else none
    | _ => none

/-- `scan_bold_red_expressions`: the worksheet is modelled as its populated
cells in the row-major order `iter_rows` visits them. -/
def scanBoldRedExpressions (ws : List Cell) : List (Cell × String) :=
  ws.filterMap cellCandidate

/-- The four Vision-Analyzer entry points used by the single-image repair
routine, as response oracles for one run: a parsed JSON object or `None`. -/
structure AnalyzerOracle where
  analyzeGeneric : String → Option Record
  analyzeVoice : String → Option Record
  evaluateGeneric : String → Option Record
  evaluateVoice : String → Option Record

/-- The run environment the closure `_retry_image_and_merge` captures:
the extraction output folder, the files on disk, the classified grouping, and
the analyzer. -/
structure RetryEnv where
  imagesTemp : String
  existingFiles : List String
  imagesBySector : List (String × List String)
  oracle : AnalyzerOracle

/-- The mutable state the routine touches: the per-run retried-image set and
the category map it merges into. -/
structure RetryState where
  retriedImages : List String
  sectorVarMap : List (String × Record)

/-- `os.path.join(a, b)` for a relative second component (POSIX). -/
def pyPathJoin (a b : String) : String :=
  if a.data.isEmpty then b
  else if a.data.getLast? == some '/' then a ++ b
  else a ++ "/" ++ b

/-- Path resolution of `_retry_image_and_merge` (`app.py` lines 163-178): the
deterministic output-folder name first, else the first grouped path whose stem
is the image name. -/
def resolveImagePath (env : RetryEnv) (imageName : String) : Option String :=
  let candidate := pyPathJoin env.imagesTemp (imageName ++ ".png")
  if env.existingFiles.contains candidate then some candidate
  else ((env.imagesBySector.map Prod.snd).flatten.find? (fun p => pyStemOf p == imageName))

/-- `res.get("data", {})` followed by `.items()`: a missing key reads as an
empty dict; a non-mapping value would make `.items()` raise. -/
def getDataRecord (res : Record) : Except String Record :=
  match lookupA res "data" with
  | none => .ok []
  | some (Value.dict d) => .ok d
  | some _ => .error "AttributeError: items"

/-- `sector_var_map.setdefault(image_name, {})` followed by the per-field
null-coalescing merge loop. -/
def mergeIntoMap (svm : List (String × Record)) (name : String) (data : Record) :
    List (String × Record) :=
  let withEntry := if (lookupA svm name).isSome then svm else svm ++ [(name, [])]
  match lookupA withEntry name with
  | some entry => setKeyA withEntry name (mergeRecord entry data)
  | none => withEntry

/-- The careful-evaluation fallback of `_retry_image_and_merge` (`app.py`
lines 204-217); the returned `Nat` counts analyzer calls made by the whole
invocation (the normal attempt already happened, hence 2). -/
def retryEval (env : RetryEnv) (st : RetryState) (imageName imagePath : String)
    (isVoice : Bool) : Except String (Bool × RetryState × Nat) :=
  match (if isVoice then env.oracle.evaluateVoice imagePath
         else env.oracle.evaluateGeneric imagePath) with
  | some res =>
    if containsKeyA res "image_type" then
      match getDataRecord res with
      | .error e => .error e
      | .ok data =>
        .ok (true, ⟨st.retriedImages, mergeIntoMap st.sectorVarMap imageName data⟩, 2)
    else .ok (false, st, 2)
  | none => .ok (false, st, 2)

/-- `_retry_image_and_merge(image_name, sector_var_map)` of `app.py` (lines
162-217), with the captured mutable state passed explicitly: resolve the path
(warn-and-report-false when unresolved), no-op when the path was already
retried this run, otherwise run the normal analysis (voice mode for voicetest
names), mark the path retried, merge a usable result, else try the careful
evaluation once.  The `Nat` component counts analyzer calls made. -/
def retryResolved (env : RetryEnv) (st : RetryState) (imageName imagePath : String) :
    Except String (Bool × RetryState × Nat) :=
  if st.retriedImages.contains imagePath then
    .ok (false, st, 0)
  else
    match (if "voicetest".data.isPrefixOf imageName.data
           then env.oracle.analyzeVoice imagePath
           else env.oracle.analyzeGeneric imagePath) with
    | some res =>
      if containsKeyA res "image_type" then
        match getDataRecord res with
        | .error e => .error e
        | .ok data =>
          .ok (true,
            ⟨imagePath :: st.retriedImages, mergeIntoMap st.sectorVarMap imageName data⟩, 1)
      else retryEval env ⟨imagePath :: st.retriedImages, st.sectorVarMap⟩ imageName imagePath
        ("voicetest".data.isPrefixOf imageName.data)
    | none => retryEval env ⟨imagePath :: st.retriedImages, st.sectorVarMap⟩ imageName imagePath
        ("voicetest".data.isPrefixOf imageName.data)

/-- Entry of the routine: path resolution, then the resolved-path stage. -/
def retryImageAndMerge (env : RetryEnv) (st : RetryState) (imageName : String) :
    Except String (Bool × RetryState × Nat) :=
  match resolveImagePath env imageName with
  | none => .ok (false, st, 0)
  | some imagePath => retryResolved env st imageName imagePath

/-- A concrete bold red expression cell, for evaluating the scan. -/
def cellC10 : Cell :=
  ⟨2, 3, some (Value.str "alpha_service"), some ⟨true, some "FF0000"⟩⟩

/-- A one-cell worksheet holding `cellC10`. -/
def wsC10 : List Cell := [cellC10]

/-- A concrete analyzer whose normal generic mode succeeds, for evaluating the
retry routine. -/
def oracleC5 : AnalyzerOracle :=
  ⟨fun _ => some [("image_type", Value.str "speed_test"),
                  ("data", Value.dict [("download_mbps", Value.int 10)])],
   fun _ => none, fun _ => none, fun _ => none⟩

/-- A concrete run environment with one extracted alpha image on disk. -/
def envC5 : RetryEnv :=
  ⟨"tmp", ["tmp/alpha_image_3.png"], [("alpha", ["tmp/alpha_image_3.png"])], oracleC5⟩

/-- Fresh per-run retry state. -/
def st0C5 : RetryState := ⟨[], []⟩

/-- The state after the first repair invocation on `alpha_image_3`. -/
def st1C5 : RetryState :=
  ⟨["tmp/alpha_image_3.png"], [("alpha_image_3", [("download_mbps", Value.int 10)])]⟩

theorem lookupA_setKeyA_self {α : Type} (d : List (String × α)) (k : String) (v : α) :
    lookupA (setKeyA d k v) k = some v := by
  induction d with
  | nil => simp [setKeyA, lookupA]
  | cons p rest ih =>
    by_cases h : p.1 = k
    · simp [setKeyA, lookupA, h]
    · simp [setKeyA, lookupA, h, ih]

theorem lookupA_setKeyA_ne {α : Type} (d : List (String × α)) (k k2 : String) (v : α)
    (h : k ≠ k2) : lookupA (setKeyA d k2 v) k = lookupA d k := by
  induction d with
  | nil => simp [setKeyA, lookupA, Ne.symm h]
  | cons p rest ih =>
    by_cases h2 : p.1 = k2
    · subst h2
      simp [setKeyA, lookupA, Ne.symm h]
    · simp only [setKeyA, if_neg h2]
      by_cases h3 : p.1 = k <;> simp [lookupA, h3, ih]

theorem isSome_lookupA_setKeyA {α : Type} (d : List (String × α)) (k k2 : String) (v : α)
    (h : (lookupA d k).isSome) : (lookupA (setKeyA d k2 v) k).isSome := by
  by_cases hk : k = k2
  · subst hk; simp [lookupA_setKeyA_self]
  · rwa [lookupA_setKeyA_ne _ _ _ _ hk]

theorem notMem_of_lookupA_eq_none {α : Type} :
    ∀ (d : List (String × α)) (k : String), lookupA d k = none → k ∉ keysOf d := by
  intro d
  induction d with
  | nil => intro k h hm; simp [keysOf] at hm
  | cons p rest ih =>
    intro k h hm
    unfold lookupA at h
    by_cases hp : p.1 = k
    · rw [if_pos hp] at h; cases h
    · rw [if_neg hp] at h
      simp only [keysOf, List.map_cons, List.mem_cons] at hm
      rcases hm with hm | hm
      · exact hp hm.symm
      · exact ih k h (by simpa [keysOf] using hm)

theorem lookupA_mergeStep_ne (acc : Record) (p : String × Value) (k : String)
    (h : k ≠ p.1) : lookupA (mergeStep acc p) k = lookupA acc k := by
  unfold mergeStep
  split
  · exact lookupA_setKeyA_ne acc k p.1 p.2 h
  · rfl

theorem lookupA_mergeStep_of_nonNull (acc : Record) (p : String × Value) (k : String)
    (h : getIsNone acc k = false) : lookupA (mergeStep acc p) k = lookupA acc k := by
  by_cases hk : k = p.1
  · subst hk
    unfold mergeStep
    simp [h]
  · exact lookupA_mergeStep_ne acc p k hk

theorem getIsNone_mergeStep_of_nonNull (acc : Record) (p : String × Value) (k : String)
    (h : getIsNone acc k = false) : getIsNone (mergeStep acc p) k = false := by
  unfold getIsNone at *
  rw [lookupA_mergeStep_of_nonNull acc p k]
  · exact h
  · exact h

theorem mergeRecord_notMem : ∀ (F R : Record) (k : String), k ∉ keysOf F →
    lookupA (mergeRecord R F) k = lookupA R k := by
  intro F
  induction F with
  | nil => intro R k _; rfl
  | cons p rest ih =>
    intro R k h
    simp only [keysOf, List.map_cons, List.mem_cons] at h
    push_neg at h
    show lookupA (mergeRecord (mergeStep R p) rest) k = lookupA R k
    rw [ih (mergeStep R p) k (by simpa [keysOf] using h.2)]
    exact lookupA_mergeStep_ne R p k h.1

theorem mergeRecord_of_nonNull : ∀ (F R : Record) (k : String), getIsNone R k = false →
    lookupA (mergeRecord R F) k = lookupA R k := by
  intro F
  induction F with
  | nil => intro R k _; rfl
  | cons p rest ih =>
    intro R k h
    show lookupA (mergeRecord (mergeStep R p) rest) k = lookupA R k
    rw [ih (mergeStep R p) k (getIsNone_mergeStep_of_nonNull R p k h)]
    exact lookupA_mergeStep_of_nonNull R p k h

theorem getIsNone_mergeRecord_of_nonNull (F R : Record) (k : String)
    (h : getIsNone R k = false) : getIsNone (mergeRecord R F) k = false := by
  unfold getIsNone at *
  rw [mergeRecord_of_nonNull F R k]
  · exact h
  · unfold getIsNone; exact h

theorem mergeRecord_makes_nonNull : ∀ (F R : Record) (k : String) (v : Value),
    (k, v) ∈ F → v.isNull = false → getIsNone (mergeRecord R F) k = false := by
  intro F
  induction F with
  | nil => intro R k v hmem _; cases hmem
  | cons p rest ih =>
    intro R k v hmem hv
    show getIsNone (mergeRecord (mergeStep R p) rest) k = false
    rcases List.mem_cons.mp hmem with hp | hp
    · subst hp
      have hstep : getIsNone (mergeStep R (k, v)) k = false := by
        by_cases hR : getIsNone R k = true
        · have hs : mergeStep R (k, v) = setKeyA R k v := by
            simp [mergeStep, hR, hv]
          rw [hs]
          simp [getIsNone, lookupA_setKeyA_self, hv]
        · rw [Bool.not_eq_true] at hR
          exact getIsNone_mergeStep_of_nonNull R (k, v) k hR
      exact getIsNone_mergeRecord_of_nonNull rest (mergeStep R (k, v)) k hstep
    · exact ih (mergeStep R p) k v hp hv

theorem mergeRecord_second_id : ∀ (F acc : Record),
    (∀ p ∈ F, p.2.isNull = false → getIsNone acc p.1 = false) →
    mergeRecord acc F = acc := by
  intro F
  induction F with
  | nil => intro acc _; rfl
  | cons p rest ih =>
    intro acc h
    have hstep : mergeStep acc p = acc := by
      unfold mergeStep
      by_cases hn : p.2.isNull = true
      · simp [hn]
      · rw [Bool.not_eq_true] at hn
        simp [h p (List.mem_cons_self p rest) hn]
    show mergeRecord (mergeStep acc p) rest = acc
    rw [hstep]
    exact ih acc (fun q hq => h q (List.mem_cons_of_mem p hq))

theorem mergeRecord_isSome : ∀ (F R : Record) (k : String),
    (lookupA R k).isSome → (lookupA (mergeRecord R F) k).isSome := by
  intro F
  induction F with
  | nil => intro R k h; exact h
  | cons p rest ih =>
    intro R k h
    show (lookupA (mergeRecord (mergeStep R p) rest) k).isSome
    refine ih (mergeStep R p) k ?_
    unfold mergeStep
    split
    · exact isSome_lookupA_setKeyA R k p.1 p.2 h
    · exact h

theorem mergeRecord_sets : ∀ (F R : Record) (k : String) (v : Value),
    (keysOf F).Nodup → lookupA F k = some v → v.isNull = false →
    getIsNone R k = true → lookupA (mergeRecord R F) k = some v := by
  intro F
  induction F with
  | nil => intro R k v _ hlk; cases hlk
  | cons p rest ih =>
    intro R k v hF hlk hv hR
    simp only [keysOf, List.map_cons, List.nodup_cons] at hF
    show lookupA (mergeRecord (mergeStep R p) rest) k = some v
    by_cases hk : p.1 = k
    · have hv2 : p.2 = v := by
        unfold lookupA at hlk
        rw [if_pos hk] at hlk
        exact Option.some.inj hlk
      have hstep : mergeStep R p = setKeyA R p.1 p.2 := by
        unfold mergeStep
        rw [hk, hv2, hR, hv]
        simp
      rw [hstep, mergeRecord_notMem rest _ k (by simpa [keysOf, ← hk] using hF.1),
        hk, hv2, lookupA_setKeyA_self]
    · have hlk2 : lookupA rest k = some v := by
        unfold lookupA at hlk
        rwa [if_neg hk] at hlk
      refine ih (mergeStep R p) k v hF.2 hlk2 hv ?_
      unfold getIsNone at *
      rw [lookupA_mergeStep_ne R p k (fun hh => hk hh.symm)]
      exact hR

theorem mergeRecord_null_entry : ∀ (F R : Record) (k : String),
    (keysOf F).Nodup → lookupA F k = some Value.null →
    lookupA (mergeRecord R F) k = lookupA R k := by
  intro F
  induction F with
  | nil => intro R k _ hlk; cases hlk
  | cons p rest ih =>
    intro R k hF hlk
    simp only [keysOf, List.map_cons, List.nodup_cons] at hF
    show lookupA (mergeRecord (mergeStep R p) rest) k = lookupA R k
    by_cases hk : p.1 = k
    · have hv2 : p.2 = Value.null := by
        unfold lookupA at hlk
        rw [if_pos hk] at hlk
        exact Option.some.inj hlk
      have hstep : mergeStep R p = R := by
        unfold mergeStep
        rw [hv2]
        simp [Value.isNull]
      rw [hstep, mergeRecord_notMem rest R k (by simpa [keysOf, ← hk] using hF.1)]
    · have hlk2 : lookupA rest k = some Value.null := by
        unfold lookupA at hlk
        rwa [if_neg hk] at hlk
      rw [ih (mergeStep R p) k hF.2 hlk2]
      exact lookupA_mergeStep_ne R p k (fun hh => hk hh.symm)

/-- C3: the null-coalescing merge writes a key only when the target lacks it or
holds null there and the new value is non-null; otherwise the existing value is
untouched; it never deletes keys; and it maps the two concrete examples of the
claim as stated (`{"a": 1}` into `{"a": null, "b": 2}` gives `{"a": 1, "b": 2}`,
`{"a": 5}` into `{"a": 1}` gives `{"a": 1}`). -/
theorem merge_null_coalescing_c3 (R F : Record) (hF : (keysOf F).Nodup) :
    (∀ k v, lookupA F k = some v → v.isNull = false → getIsNone R k = true →
      lookupA (mergeRecord R F) k = some v) ∧
    (∀ k, lookupA F k = none → lookupA (mergeRecord R F) k = lookupA R k) ∧
    (∀ k, lookupA F k = some Value.null → lookupA (mergeRecord R F) k = lookupA R k) ∧
    (∀ k, getIsNone R k = false → lookupA (mergeRecord R F) k = lookupA R k) ∧
    (∀ k, (lookupA R k).isSome → (lookupA (mergeRecord R F) k).isSome) ∧
    mergeRecord [("a", Value.null), ("b", Value.int 2)] [("a", Value.int 1)]
      = [("a", Value.int 1), ("b", Value.int 2)] ∧
    mergeRecord [("a", Value.int 1)] [("a", Value.int 5)] = [("a", Value.int 1)] :=
  ⟨fun k v hlk hv hR => mergeRecord_sets F R k v hF hlk hv hR,
    fun k hlk => mergeRecord_notMem F R k (notMem_of_lookupA_eq_none F k hlk),
    fun k hlk => mergeRecord_null_entry F R k hF hlk,
    fun k h => mergeRecord_of_nonNull F R k h,
    fun k h => mergeRecord_isSome F R k h, rfl, rfl⟩

/-- Witness for C3 at the claim's own example: the null slot `"a"` is filled. -/
theorem merge_null_coalescing_c3_witness :
    lookupA (mergeRecord [("a", Value.null), ("b", Value.int 2)] [("a", Value.int 1)]) "a"
      = some (Value.int 1) :=
  (merge_null_coalescing_c3 [("a", Value.null), ("b", Value.int 2)] [("a", Value.int 1)]
    (by simp [keysOf])).1 "a" (Value.int 1) rfl rfl rfl

/-- C4: the null-coalescing merge is idempotent — merging the same field set a
second time changes nothing, for every record and field set. -/
theorem merge_idempotent_c4 (R F : Record) :
    mergeRecord (mergeRecord R F) F = mergeRecord R F :=
  mergeRecord_second_id F (mergeRecord R F)
    (fun p hp hnn => mergeRecord_makes_nonNull F R p.1 p.2 (by simpa using hp) hnn)

theorem listNth_eq_none_of_le {α : Type} :
    ∀ (s : List α) (i : Nat), s.length ≤ i → listNth s i = none := by
  intro s
  induction s with
  | nil => intro i _; cases i <;> rfl
  | cons a rest ih =>
    intro i h
    cases i with
    | zero => simp at h
    | succ n => exact ih n (Nat.le_of_succ_le_succ h)

theorem keyMatchAt_eq_none (s : List Char) (i : Nat) : keyMatchAt s i = none := by
  unfold keyMatchAt
  by_cases hd : (dollarAt s i && dollarAt s i) = true
  · rw [if_pos hd]
    have hd1 : dollarAt s i = true := by simpa using hd
    unfold dollarAt at hd1
    by_cases h1 : (i == s.length) = true
    · have he : i = s.length := by simpa using h1
      rw [listNth_eq_none_of_le s i (Nat.le_of_eq he.symm)]
    · rw [Bool.not_eq_true] at h1
      rw [h1, Bool.false_or] at hd1
      have hnl : (listNth s i == some '\n') = true := by
        simp only [Bool.and_eq_true] at hd1
        exact hd1.2
      have hn : listNth s i = some '\n' := eq_of_beq hnl
      rw [hn]
      simp [isQuote]
  · rw [if_neg hd]

theorem keyFindAllAux_eq_nil (s : List Char) :
    ∀ (fuel i : Nat), keyFindAllAux s i fuel = [] := by
  intro fuel
  induction fuel with
  | zero => intro i; rfl
  | succ n ih =>
    intro i
    show keyFindAllAux s i (n + 1) = []
    unfold keyFindAllAux
    rw [keyMatchAt_eq_none]
    split
    · rfl
    · exact ih (i + 1)

theorem keyPatternFindall_eq_nil (s : String) : keyPatternFindall s = [] :=
  keyFindAllAux_eq_nil s.data (s.data.length + 1) 0

/-- C1: on the dataset `alpha_service = {"nr_band": 3}` the expression
`AlphaService["NR_Band"]` resolves to null, not to `3`: the path-segment
pattern `key_pattern` (source line 27) places the `$` end anchor before each
quote character, so it can never match, every bracketed expression yields an
empty key list, and the resolver returns `None` (line 63). -/
theorem resolver_bracket_path_c1 :
    resolveExpressionWithVars "AlphaService[\"NR_Band\"]"
      [("alpha_service", Value.dict [("nr_band", Value.int 3)])] = Value.null := by
  rfl

/-- C7: a resolution miss is silent.  If the root identifier of the expression
matches no dataset variable (under either matching tier), or the expression
carries any bracketed remainder at all, the resolver returns the null result —
it is a total function, so nothing is raised — and the write-back coercion
turns that null into the `"NULL"` sentinel string. -/
theorem resolution_miss_silent_c7 (expr : String) (vars : Record)
    (h : (∀ b rest, matchRoot (pyStrip expr) = some (b, rest) → findBaseKey vars b = none)
       ∨ (∃ b rest, matchRoot (pyStrip expr) = some (b, rest) ∧
            (pyStrip rest).data.isEmpty = false)) :
    resolveExpressionWithVars expr vars = Value.null ∧
    coerceValue (resolveExpressionWithVars expr vars) = Value.str "NULL" := by
  have hroot : ∀ b rest, (pyStrip rest).data.isEmpty = false →
      resolveRoot vars b rest = Value.null := by
    intro b rest hne
    unfold resolveRoot
    cases hbk : findBaseKey vars b with
    | none => rfl
    | some bk =>
      show (match lookupA vars bk with
        | none => Value.null
        | some obj => resolveAfterBase rest obj) = Value.null
      cases hlk : lookupA vars bk with
      | none => rfl
      | some obj =>
        show resolveAfterBase rest obj = Value.null
        unfold resolveAfterBase
        rw [if_neg (by simp [hne]), keyPatternFindall_eq_nil]
  have hnull : resolveExpressionWithVars expr vars = Value.null := by
    unfold resolveExpressionWithVars
    rcases h with h | ⟨b, rest, hm, hne⟩
    · cases hmr : matchRoot (pyStrip expr) with
      | none => rfl
      | some pr =>
        obtain ⟨b, rest⟩ := pr
        show resolveRoot vars b rest = Value.null
        unfold resolveRoot
        rw [h b rest hmr]
    · rw [hm]
      show resolveRoot vars b rest = Value.null
      exact hroot b rest hne
  exact ⟨hnull, by rw [hnull]; rfl⟩

/-- Witness for C7 at the claim's example `unknown_var["x"]`. -/
theorem resolution_miss_silent_c7_witness :
    resolveExpressionWithVars "unknown_var[\"x\"]"
      [("alpha_service", Value.dict [("nr_band", Value.int 3)])] = Value.null ∧
    coerceValue (resolveExpressionWithVars "unknown_var[\"x\"]"
      [("alpha_service", Value.dict [("nr_band", Value.int 3)])]) = Value.str "NULL" := by
  refine resolution_miss_silent_c7 _ _ (Or.inl ?_)
  intro b rest hm
  have h0 : matchRoot (pyStrip "unknown_var[\"x\"]")
      = some ("unknown_var", "[\"x\"]") := rfl
  rw [h0] at hm
  injection hm with h1
  injection h1 with hb hr
  subst hb
  rfl

/-- C6: write-back coercion is a total deterministic function of the resolved
value; concretely null maps to the `"NULL"` sentinel, `"12.50"` to the number
12.5, `"1,024"` to the integer 1024 (comma stripped), a mapping to its JSON
text, native numbers map to themselves, and a string failing numeric
conversion is written as-is.  Totality holds by construction (`coerceValue`
is a Lean function on all of `Value`). -/
theorem coercion_total_c6 :
    coerceValue Value.null = Value.str "NULL" ∧
    coerceValue (Value.str "12.50") = Value.float (25 / 2) ∧
    coerceValue (Value.str "1,024") = Value.int 1024 ∧
    coerceValue (Value.dict [("x", Value.int 1)]) = Value.str "\x7b\"x\": 1\x7d" ∧
    (∀ n : Int, coerceValue (Value.int n) = Value.int n) ∧
    (∀ q : ℚ, coerceValue (Value.float q) = Value.float q) ∧
    (∀ s : String, toNumberConvert (Value.str s) = none →
      coerceValue (Value.str s) = Value.str s) := by
  refine ⟨rfl, ?_, ?_, ?_, fun n => rfl, fun q => rfl, fun s h => ?_⟩
  · simp [coerceValue, toNumberConvert, pyStrip, stripCommas, matchIntPattern,
      matchDecPattern, splitSign, allDigits, digitsToNat, pyIsSpace]
    norm_num
  · rfl
  · rfl
  · simp [coerceValue, h]

/-- Witness for C6: a non-numeric string is written back unchanged. -/
theorem coercion_total_c6_witness :
    toNumberConvert (Value.str "N/A") = none ∧
    coerceValue (Value.str "N/A") = Value.str "N/A" :=
  ⟨rfl, coercion_total_c6.2.2.2.2.2.2 "N/A" rfl⟩

theorem groupStep_eq_error (buckets : List (String × List String)) (p : String) :
    groupStep buckets p = Except.error "TypeError: unhashable type: list" := rfl

theorem groupImagesBySector_error_on_cons (p : String) (ps : List String) :
    groupImagesBySector (p :: ps) = Except.error "TypeError: unhashable type: list" := rfl

/-- C2: grouping never places any path in any bucket — on the very first path
(here the claim's own shape `alpha_image_1.png`) the function raises
`TypeError`, because `Path(p).stem.split("_")` is a list (the `[0]` index is
missing) and a list cannot be hashed as a dict key in the membership test. -/
theorem group_images_by_sector_raises_c2 :
    groupImagesBySector ["alpha_image_1.png"]
      = Except.error "TypeError: unhashable type: list" := rfl

/-- C9 counterexample: at the concrete input of three empty speedtest maps the
aggregator's key set is not the claimed
`average_<sector>_speedtest` triple. -/
theorem compute_averages_keys_counterexample_c9 :
    keysOf (computeAverages [] [] [])
      ≠ ["average_alpha_speedtest", "average_beta_speedtest",
         "average_gamma_speedtest"] := by
  decide

/-- C9 (amended): for every input the aggregator's key list is exactly the
source's spelling `avearge_<sector>_speedtest`, one entry per sector. -/
theorem compute_averages_keys_c9 (a b g : List (String × Value)) :
    keysOf (computeAverages a b g)
      = ["avearge_alpha_speedtest", "avearge_beta_speedtest",
         "avearge_gamma_speedtest"] := rfl

theorem collectStep_eq (m : String) (acc : List ℚ) (e : String × Value) :
    collectStep m acc e =
      match metricOfEntry m e with
      | some q => acc ++ [q]
      | none => acc := by
  rcases e with ⟨k, v⟩
  cases v <;> rfl

theorem foldl_collectStep_eq (m : String) :
    ∀ (l : List (String × Value)) (acc : List ℚ),
      l.foldl (collectStep m) acc = acc ++ l.filterMap (metricOfEntry m) := by
  intro l
  induction l with
  | nil => intro acc; simp
  | cons e t ih =>
    intro acc
    rw [List.foldl_cons, ih (collectStep m acc e), collectStep_eq,
      List.filterMap_cons]
    cases hg : metricOfEntry m e <;> simp

theorem collectMetric_eq (l : List (String × Value)) (m : String) :
    collectMetric l m = contributingValues l m := by
  rw [collectMetric, contributingValues, foldl_collectStep_eq]
  simp

/-- C8 (amended): for every speedtest map, each of the three metric fields is
the arithmetic mean over exactly those entries whose value for that field is
non-null, non-boolean and accepted by `float()` conversion — native numbers
and numeric strings — with null when no entry contributes; and the claim's
concrete example evaluates as stated (download 15, ping 5, upload null). -/
theorem compute_averages_amended_c8 (speedMap : List (String × Value)) :
    computeSpeedAverages speedMap =
      [("download_mbps", meanValue (contributingValues speedMap "download_mbps")),
       ("upload_mbps", meanValue (contributingValues speedMap "upload_mbps")),
       ("ping_ms", meanValue (contributingValues speedMap "ping_ms"))] ∧
    computeSpeedAverages
        [("img1", Value.dict [("download_mbps", Value.int 10)]),
         ("img2", Value.dict [("download_mbps", Value.int 20), ("ping_ms", Value.int 5)])]
      = [("download_mbps", Value.float 15), ("upload_mbps", Value.null),
         ("ping_ms", Value.float 5)] := by
  constructor
  · simp [computeSpeedAverages, speedMetricNames, collectMetric_eq, meanValue]
  · simp [computeSpeedAverages, speedMetricNames, collectMetric, collectStep,
      entryGet, toNumber, lookupA, meanValue]
    norm_num

/-- C8 counterexample: on the map `{"img1": {"download_mbps": "10"}}` — whose
single value is a numeric **string**, not a numeric value — the code averages
the `float()`-converted string and reports 10, while the claim as stated says
the field has zero contributing entries and must be null; hence the code's
output differs from the claim's formula. -/
theorem compute_averages_counterexample_c8 :
    lookupA (computeSpeedAverages [("img1", Value.dict [("download_mbps", Value.str "10")])])
        "download_mbps" = some (Value.float 10) ∧
    lookupA (specSpeedAveragesStrict [("img1", Value.dict [("download_mbps", Value.str "10")])])
        "download_mbps" = some Value.null ∧
    computeSpeedAverages [("img1", Value.dict [("download_mbps", Value.str "10")])]
      ≠ specSpeedAveragesStrict [("img1", Value.dict [("download_mbps", Value.str "10")])] := by
  have h1 : lookupA
      (computeSpeedAverages [("img1", Value.dict [("download_mbps", Value.str "10")])])
      "download_mbps" = some (Value.float 10) := by
    simp [computeSpeedAverages, speedMetricNames, collectMetric, collectStep,
      entryGet, toNumber, pyFloatOfString, pyStrip, pyIsSpace, splitSign,
      parseUnsignedFloat, parseExponent, digitsToNat, allDigits, lookupA, meanValue]
  have h2 : lookupA
      (specSpeedAveragesStrict [("img1", Value.dict [("download_mbps", Value.str "10")])])
      "download_mbps" = some Value.null := rfl
  refine ⟨h1, h2, fun hEq => ?_⟩
  have h4 : lookupA
      (computeSpeedAverages [("img1", Value.dict [("download_mbps", Value.str "10")])])
      "download_mbps" = lookupA
      (specSpeedAveragesStrict [("img1", Value.dict [("download_mbps", Value.str "10")])])
      "download_mbps" := by rw [hEq]
  rw [h1, h2] at h4
  exact Value.noConfusion (Option.some.inj h4)

/-- C10: the marked-expression scan inspects only spreadsheet columns 1-16;
every (cell, expression) pair it returns has column index at most 16, so a
bold red cell in a higher column is never scanned, resolved, or written
back. -/
theorem scan_bounded_columns_c10 (ws : List Cell) (c : Cell) (e : String)
    (h : (c, e) ∈ scanBoldRedExpressions ws) : c.col ≤ 16 := by
  rcases List.mem_filterMap.mp h with ⟨a, _, hf⟩
  unfold cellCandidate at hf
  by_cases hcol : a.col < 1 ∨ 16 < a.col
  · rw [if_pos hcol] at hf; cases hf
  · rw [if_neg hcol] at hf
    push_neg at hcol
    have hac : a = c := by
      split at hf
      all_goals try split at hf
      all_goals try split at hf
      all_goals try split at hf
      all_goals
        first
        | (cases hf; rfl)
        | cases hf
    rw [← hac]
    exact hcol.2

/-- Witness for C10: a concrete bold red cell at column 3 is returned by the
scan, and the theorem bounds its column. -/
theorem scan_bounded_columns_c10_witness : cellC10.col ≤ 16 := by
  have hmem : (cellC10, "alpha_service") ∈ scanBoldRedExpressions wsC10 := by
    have hscan : scanBoldRedExpressions wsC10 = [(cellC10, "alpha_service")] := rfl
    rw [hscan]
    exact List.mem_singleton.mpr rfl
  exact scan_bounded_columns_c10 wsC10 cellC10 "alpha_service" hmem

theorem retryEval_retriedImages (env : RetryEnv) (st : RetryState) (n p : String)
    (v : Bool) (b : Bool) (st1 : RetryState) (cnt : Nat)
    (h : retryEval env st n p v = Except.ok (b, st1, cnt)) :
    st1.retriedImages = st.retriedImages := by
  unfold retryEval at h
  split at h
  all_goals try split at h
  all_goals try split at h
  all_goals cases h
  all_goals rfl

/-- C5: within one run, once the single-image repair routine has completed on
an image whose path resolves to `p`, the path `p` is in the per-run
retried-image set, and any later invocation resolving to the same path
performs zero analyzer calls, leaves the state unchanged, and reports no
change. -/
theorem retry_image_dedup_c5 (env : RetryEnv) (st : RetryState) (n p : String)
    (b : Bool) (st1 : RetryState) (cnt : Nat)
    (h1 : retryImageAndMerge env st n = Except.ok (b, st1, cnt))
    (hp : resolveImagePath env n = some p) :
    st1.retriedImages.contains p = true ∧
    (∀ n2, resolveImagePath env n2 = some p →
      retryImageAndMerge env st1 n2 = Except.ok (false, st1, 0)) := by
  have h1b : retryResolved env st n p = Except.ok (b, st1, cnt) := by
    unfold retryImageAndMerge at h1
    rw [hp] at h1
    exact h1
  have hmem : st1.retriedImages.contains p = true := by
    unfold retryResolved at h1b
    by_cases hc : st.retriedImages.contains p = true
    · rw [if_pos hc] at h1b
      injection h1b with h2
      injection h2 with hb h3
      injection h3 with hst hcnt
      rw [← hst]
      exact hc
    · rw [if_neg hc] at h1b
      split at h1b
      all_goals try split at h1b
      all_goals try split at h1b
      all_goals
        first
        | (cases h1b <;> simp)
        | (have hre := retryEval_retriedImages _ _ _ _ _ _ _ _ h1b; rw [hre]; simp)
  refine ⟨hmem, fun n2 hp2 => ?_⟩
  unfold retryImageAndMerge
  rw [hp2]
  show retryResolved env st1 n2 p = Except.ok (false, st1, 0)
  unfold retryResolved
  rw [if_pos hmem]

/-- Witness for C5 at a concrete run: the first invocation succeeds with one
analyzer call, after which the path is retried and a second invocation is a
no-op. -/
theorem retry_image_dedup_c5_witness :
    st1C5.retriedImages.contains "tmp/alpha_image_3.png" = true ∧
    retryImageAndMerge envC5 st1C5 "alpha_image_3"
      = Except.ok (false, st1C5, 0) := by
  have h := retry_image_dedup_c5 envC5 st0C5 "alpha_image_3" "tmp/alpha_image_3.png"
    true st1C5 1 (by rfl) (by rfl)
  exact ⟨h.1, h.2 "alpha_image_3" (by rfl)⟩
